import Mathlib

/-!
A verification development for the retrieval-fusion-rerank pipeline of the
search_pipeline package.  The Python modules under src/search_pipeline are
shallowly embedded below: Arrow tables carrying an id column and a single
metric-value column become lists of pairs over ℚ, classes become structures,
methods become functions, and raised exceptions become Option/Except values.
Nondeterministic library operations (the polars unique with keep any, whose
documentation guarantees neither which duplicate row survives nor row order)
are embedded as relations over the possible outputs.
-/

namespace SearchPipeline

/-- Ranking metric of a search result (common.py, class RankMetric). -/
inductive RankMetric where
  | Score
  | Distance
  | Undefined
deriving DecidableEq, Repr

/-- Embedding of common.py SearchResult: the Arrow table tbl (an id column plus
one metric-value column) becomes a list of (id, value) rows; rank_metric and
the sorted flag are carried unchanged. -/
structure SearchResult where
  rows : List (Nat × ℚ)
  rank_metric : RankMetric
  sorted : Bool
deriving DecidableEq, Repr

/-- SearchResult.descending from common.py: Score means higher is better
(descending), Distance means lower is better (ascending); the Undefined branch
raises in the source, embedded as none. -/
def SearchResult.descending (r : SearchResult) : Option Bool :=
  match r.rank_metric with
  | RankMetric.Score => some true
  | RankMetric.Distance => some false
  | RankMetric.Undefined => none

/-- Dense rank (polars rank with method dense) of value v within the column
vs, direction given by descending: one plus the number of distinct values
strictly better than v; equal values share a rank. -/
def denseRank (descending : Bool) (vs : List ℚ) (v : ℚ) : Nat :=
  ((vs.filter (fun w => if descending then v < w else w < v)).dedup).length + 1

/-- State of a ReciprocalRankFusion object (fusion_method.py lines 44-47). -/
structure ReciprocalRankFusion where
  k : ℚ
  max_count : Option Nat
deriving DecidableEq, Repr

/-- ReciprocalRankFusion.__init__ (fusion_method.py lines 44-47).  The source
executes self.k = 60 literally, so the k argument is stored nowhere; max_count
is stored but never read by fuse. -/
def ReciprocalRankFusion.init (k : ℚ) (max_count : Option Nat) : ReciprocalRankFusion :=
  ⟨60, max_count⟩

/-- The per-input ranking step of ReciprocalRankFusion.fuse: each row of r is
mapped to (id, dense rank of its value in r by r.descending); an input whose
metric is Undefined makes the source raise, embedded as the empty contribution
behind the isSome guard of fuse. -/
def rankRows (r : SearchResult) : List (Nat × Nat) :=
  match r.descending with
  | some d => r.rows.map (fun p => (p.1, denseRank d (r.rows.map Prod.snd) p.2))
  | none => []

/-- ReciprocalRankFusion.fuse (fusion_method.py lines 49-73).  All inputs are
ranked, the (id, rank) rows are concatenated, grouped by id, and each group of
ranks is scored as 1 / (sum over the group of (rank + self.k)); the output has
metric Score and sorted false.  A polars concat of zero frames raises and an
Undefined-metric input raises inside rank, both embedded as none.  The group
order produced by group_by is unspecified; the dedup order of the id list is
used here and every per-claim property below is insensitive to row order. -/
def ReciprocalRankFusion.fuse (self : ReciprocalRankFusion)
    (search_results : List SearchResult) : Option SearchResult :=
  if search_results.isEmpty then none
  else if search_results.all (fun r => r.descending.isSome) then
    let ranked : List (Nat × Nat) := (search_results.map rankRows).flatten
    let ids : List Nat := (ranked.map Prod.fst).dedup
    some ⟨ids.map (fun i =>
        (i, 1 / (((ranked.filter (fun p => p.1 = i)).map
          (fun p => (p.2 : ℚ) + self.k)).sum))),
      RankMetric.Score, false⟩
  else none

/-- Value recorded for id i in a SearchResult, when present. -/
def scoreOf (r : SearchResult) (i : Nat) : Option ℚ :=
  (r.rows.find? (fun p => p.1 = i)).map Prod.snd

/-- Concatenation of all input rows, as built by pa.concat_tables inside
ChainFusion.fuse after every table is renamed to the (id, score) shape. -/
def concatRows (search_results : List SearchResult) : List (Nat × ℚ) :=
  (search_results.map SearchResult.rows).flatten

/-- ChainFusion.fuse (fusion_method.py lines 17-40), as a relation between the
input list and the possible outputs.  The polars unique call with subset id and
keep any removes duplicate ids while keeping an unspecified one of the
duplicate rows, in unspecified row order, so the embedding constrains exactly
what the library guarantees: metric Undefined, sorted false, no duplicate ids,
every output row one of the concatenated input rows, and every input id
represented. -/
def chainFuse (search_results : List SearchResult) (out : SearchResult) : Prop :=
  out.rank_metric = RankMetric.Undefined ∧
  out.sorted = false ∧
  (out.rows.map Prod.fst).Nodup ∧
  (∀ p ∈ out.rows, p ∈ concatRows search_results) ∧
  (∀ i ∈ (concatRows search_results).map Prod.fst, i ∈ out.rows.map Prod.fst)

instance (search_results : List SearchResult) (out : SearchResult) :
    Decidable (chainFuse search_results out) := by
  unfold chainFuse
  infer_instance

/-- Deduplication by id keeping the first-seen occurrence in input order.
This follows the words of the spec, not the source: the source uses keep any,
which promises no particular occurrence.  Used to compare the source relation
against the deterministic behaviour the spec ascribes to it. -/
def dedupFirstSeen (rows : List (Nat × ℚ)) : List (Nat × ℚ) :=
  rows.foldl (fun acc p => if acc.any (fun q => q.1 = p.1) then acc else acc ++ [p]) []

/-- ChainFusion as the spec words it: concatenate, dedupe keeping the
first-seen occurrence per id in input order, metric Undefined, sorted false. -/
def chainFuseFirstSeen (search_results : List SearchResult) : SearchResult :=
  ⟨dedupFirstSeen (concatRows search_results), RankMetric.Undefined, false⟩

/-- NullSearcher.search (base_searchers.py lines 17-32): an empty table with
metric Undefined and sorted false, for every query. -/
def NullSearcher.search (query : String) : SearchResult :=
  ⟨[], RankMetric.Undefined, false⟩

/-- A base searcher is its search method: query to SearchResult. -/
abbrev Searcher := String → SearchResult

/-- A fusion method is its fuse method, as typed by the FusionMethod ABC. -/
abbrev Fusion := List SearchResult → SearchResult

/-- A reranker is its rerank method: query and fused result to result. -/
abbrev RerankFn := String → SearchResult → SearchResult

/-- The construction-time failures of create_search_fn: the zero-searcher
raise and the two assert statements, one error value per raise site. -/
inductive PipelineError where
  | NoSearchersConfigured
  | RedundantFusionMethod
  | NoFusionMethod
deriving DecidableEq, Repr

/-- create_search_fn (search_pipeline/__init__.py lines 8-39): validates the
combination eagerly and returns the composed query function; a lone searcher
passed bare is wrapped into a singleton list by the source before this logic,
so the embedding takes the list form. -/
def create_search_fn (base_searchers : List Searcher)
    (fusion_method : Option Fusion) (reranker : Option RerankFn) :
    Except PipelineError (String → SearchResult) :=
  match base_searchers with
  | [] => Except.error PipelineError.NoSearchersConfigured
  | [first] =>
    match fusion_method with
    | some _ => Except.error PipelineError.RedundantFusionMethod
    | none =>
      let searcher : String → SearchResult := fun q => first q
      match reranker with
      | some rr => Except.ok (fun q => rr q (searcher q))
      | none => Except.ok searcher
  | s1 :: s2 :: rest =>
    match fusion_method with
    | none => Except.error PipelineError.NoFusionMethod
    | some fm =>
      let searcher : String → SearchResult :=
        fun q => fm ((s1 :: s2 :: rest).map (fun s => s q))
      match reranker with
      | some rr => Except.ok (fun q => rr q (searcher q))
      | none => Except.ok searcher

/-- Reranker.retrieve_docs (rerankers.py lines 16-23): an inner join of the
result ids with the documents table; ids with no document row simply produce
no joined row.  The documents table is the function from id to stored text. -/
def retrieve_docs (documents : Nat → Option String)
    (results : List (Nat × ℚ)) : List (Nat × String) :=
  results.filterMap (fun p => (documents p.1).map (fun d => (p.1, d)))

/-- MSMarcoCrossEncoder.rerank (rerankers.py lines 35-45): joins the candidate
ids to their documents, scores each (query, doc) pair with the cross-encoder
(embedded as the oracle predict), and returns those ids with the model scores,
metric Score, sorted false. -/
def MSMarcoCrossEncoder.rerank (documents : Nat → Option String)
    (predict : String → String → ℚ) (query : String)
    (search_result : SearchResult) : SearchResult :=
  let docs := retrieve_docs documents search_result.rows
  ⟨docs.map (fun p => (p.1, predict query p.2)), RankMetric.Score, false⟩

end SearchPipeline

namespace SearchPipeline

/-- C1: the spec says each input is dense-ranked by its own metric direction
and each id is scored as the sum over the inputs containing it of
1 / (k + rank), so at the worked example id 2 should come out on top.  The
source instead computes 1 / (sum over those inputs of (rank + k)): at the
very inputs of the spec's example, id 2 (ranks 2 and 1) receives
1 / (62 + 61) = 1/123, strictly below id 1's 1/61 and id 3's 1/62, so id 2
ranks below both instead of above both. -/
theorem c1_rrf_formula_at_spec_example :
    (ReciprocalRankFusion.init 60 none).fuse
        [⟨[(1, 9/10), (2, 1/2)], RankMetric.Score, false⟩,
         ⟨[(2, 1/10), (3, 2/5)], RankMetric.Distance, false⟩]
      = some ⟨[(1, 1/61), (2, 1/123), (3, 1/62)], RankMetric.Score, false⟩ ∧
    (1 : ℚ)/123 < 1/62 ∧ (1 : ℚ)/123 < 1/61 ∧ ¬ ((1 : ℚ)/123 = 1/61 + 1/61) := by
  refine ⟨?_, by norm_num, by norm_num, by norm_num⟩
  norm_num [ReciprocalRankFusion.fuse, ReciprocalRankFusion.init, rankRows,
    SearchResult.descending, denseRank, List.dedup, List.filter]

/-- C2: the spec says appearing in more input rankings never lowers an id's
RRF score and that an id present in every input at a given rank scores
strictly higher than an id present in only one input at the same rank.  In
the source, id 1 at rank 1 of a single-row result R scores 1/61 when R is
fused with a disjoint ranking but only 1/122 when fused with a copy of R, and
in one fusion an id at rank 1 of both inputs scores 1/122 while an id at
rank 1 of just one input scores 1/61: more appearances strictly lower the
score. -/
theorem c2_rrf_more_appearances_lower_score :
    (ReciprocalRankFusion.init 60 none).fuse
        [⟨[(1, 1/2)], RankMetric.Score, false⟩, ⟨[(2, 1/2)], RankMetric.Score, false⟩]
      = some ⟨[(1, 1/61), (2, 1/61)], RankMetric.Score, false⟩ ∧
    (ReciprocalRankFusion.init 60 none).fuse
        [⟨[(1, 1/2)], RankMetric.Score, false⟩, ⟨[(1, 1/2)], RankMetric.Score, false⟩]
      = some ⟨[(1, 1/122)], RankMetric.Score, false⟩ ∧
    (ReciprocalRankFusion.init 60 none).fuse
        [⟨[(1, 1), (2, 1)], RankMetric.Score, false⟩, ⟨[(1, 1)], RankMetric.Score, false⟩]
      = some ⟨[(2, 1/61), (1, 1/122)], RankMetric.Score, false⟩ ∧
    (1 : ℚ)/122 < 1/61 := by
  refine ⟨?_, ?_, ?_, by norm_num⟩ <;>
  norm_num [ReciprocalRankFusion.fuse, ReciprocalRankFusion.init, rankRows,
    SearchResult.descending, denseRank, List.dedup, List.filter]

/-- C3: the spec says fuse uses the constructor-supplied k, 60 being only the
default.  The source constructor stores the literal 60 whatever k is passed,
so fusing the same input with k = 0 and with k = 7 yields the very scores of
k = 60 (1/61 for a rank-1 id, not 1/1 or 1/8), and any two constructor k
values give identical fuse results. -/
theorem c3_constructor_k_is_ignored :
    (∀ (kq : ℚ) (mc : Option Nat), (ReciprocalRankFusion.init kq mc).k = 60) ∧
    (ReciprocalRankFusion.init 0 none).fuse [⟨[(1, 9/10)], RankMetric.Score, false⟩]
      = some ⟨[(1, 1/61)], RankMetric.Score, false⟩ ∧
    (ReciprocalRankFusion.init 7 none).fuse [⟨[(1, 9/10)], RankMetric.Score, false⟩]
      = some ⟨[(1, 1/61)], RankMetric.Score, false⟩ ∧
    ¬ ((1 : ℚ)/61 = 1/1) ∧ ¬ ((1 : ℚ)/61 = 1/8) := by
  refine ⟨fun _ _ => rfl, ?_, ?_, by norm_num, by norm_num⟩ <;>
  norm_num [ReciprocalRankFusion.fuse, ReciprocalRankFusion.init, rankRows,
    SearchResult.descending, denseRank, List.dedup, List.filter]

/-- C9: NullSearcher.search returns, for every query string including the
empty one, the empty SearchResult with metric Undefined and sorted false, and
repeated calls with any queries agree. -/
theorem c9_null_searcher_always_empty :
    ∀ q : String, NullSearcher.search q = ⟨[], RankMetric.Undefined, false⟩ ∧
      (NullSearcher.search q).rows.length = 0 ∧
      NullSearcher.search "" = ⟨[], RankMetric.Undefined, false⟩ ∧
      ∀ q2 : String, NullSearcher.search q = NullSearcher.search q2 := by
  exact fun q => ⟨rfl, rfl, rfl, fun q2 => rfl⟩

/-- C7: a pipeline built from exactly one searcher, no fusion method and no
reranker is accepted by create_search_fn and returns, on every query, exactly
the SearchResult of that searcher (hence the same candidates, metric and
sorted flag). -/
theorem c7_single_searcher_passthrough :
    ∀ (s : Searcher), ∃ g, create_search_fn [s] none none = Except.ok g ∧
      ∀ q : String, g q = s q ∧ (g q).rows = (s q).rows ∧
        (g q).rank_metric = (s q).rank_metric ∧ (g q).sorted = (s q).sorted := by
  exact fun s => ⟨fun q => s q, rfl, fun q => ⟨rfl, rfl, rfl, rfl⟩⟩

end SearchPipeline

namespace SearchPipeline

/-- A duplicate-free list of ids with the same members as another list is
exactly as long as that list deduplicated. -/
theorem nodup_length_eq_dedup_length {l m : List Nat} (hl : l.Nodup)
    (h : ∀ i, i ∈ l ↔ i ∈ m) : l.length = m.dedup.length := by
  have h1 : l.toFinset = m.toFinset := by
    ext i
    simp only [List.mem_toFinset]
    exact h i
  calc l.length = l.toFinset.card := (List.toFinset_card_of_nodup hl).symm
    _ = m.toFinset.card := by rw [h1]
    _ = m.dedup.length := List.card_toFinset m

/-- The ids of any chainFuse output are exactly the ids of the concatenated
input rows. -/
theorem chainFuse_mem_ids_iff {search_results : List SearchResult}
    {out : SearchResult} (h : chainFuse search_results out) (i : Nat) :
    i ∈ out.rows.map Prod.fst ↔ i ∈ (concatRows search_results).map Prod.fst := by
  constructor
  · intro hi
    rcases List.mem_map.1 hi with ⟨p, hp, hpi⟩
    exact hpi ▸ List.mem_map.2 ⟨p, h.2.2.2.1 p hp, rfl⟩
  · intro hi
    exact h.2.2.2.2 i hi

/-- Any chainFuse output carries exactly one candidate per distinct input id. -/
theorem chainFuse_length {search_results : List SearchResult}
    {out : SearchResult} (h : chainFuse search_results out) :
    out.rows.length = ((concatRows search_results).map Prod.fst).dedup.length := by
  calc out.rows.length = (out.rows.map Prod.fst).length := (List.length_map _ _).symm
    _ = ((concatRows search_results).map Prod.fst).dedup.length :=
      nodup_length_eq_dedup_length h.2.2.1 (chainFuse_mem_ids_iff h)

/-- C5 counterexample: the claim fixes the surviving duplicate to the
first-seen occurrence in input order, but the source's dedupe (polars unique
with keep any) is free to keep any occurrence.  For inputs whose rows are
(1, 5) and then (1, 9), keeping (1, 9) is an admissible behaviour of the
source, and it differs from the first-seen result, which keeps (1, 5). -/
theorem c5_chain_fusion_not_first_seen :
    chainFuse [⟨[(1, 5)], RankMetric.Score, false⟩, ⟨[(1, 9)], RankMetric.Score, false⟩]
      ⟨[(1, 9)], RankMetric.Undefined, false⟩ ∧
    chainFuseFirstSeen [⟨[(1, 5)], RankMetric.Score, false⟩,
        ⟨[(1, 9)], RankMetric.Score, false⟩]
      = ⟨[(1, 5)], RankMetric.Undefined, false⟩ ∧
    (⟨[(1, 9)], RankMetric.Undefined, false⟩ : SearchResult)
      ≠ ⟨[(1, 5)], RankMetric.Undefined, false⟩ :=
  ⟨by decide, by decide, by decide⟩

/-- C5 amended: ChainFusion.fuse returns the concatenation of all inputs
(normalized to the (id, value) shape) deduplicated by id keeping one
unspecified occurrence per duplicated id, with metric Undefined and sorted
false; in particular every output row is one of the concatenated input rows
and there is exactly one output candidate per distinct input id. -/
theorem c5_chain_fusion_amended (search_results : List SearchResult)
    (out : SearchResult) (h : chainFuse search_results out) :
    out.rank_metric = RankMetric.Undefined ∧ out.sorted = false ∧
    (∀ p ∈ out.rows, p ∈ concatRows search_results) ∧
    (out.rows.map Prod.fst).Nodup ∧
    out.rows.length = ((concatRows search_results).map Prod.fst).dedup.length :=
  ⟨h.1, h.2.1, h.2.2.2.1, h.2.2.1, chainFuse_length h⟩

/-- Witness for the amended C5 at a concrete two-input fusion with a
duplicated id across differently-metered inputs. -/
theorem c5_chain_fusion_amended_witness :
    (⟨[(2, 7), (3, 1)], RankMetric.Undefined, false⟩ : SearchResult).rows.length
      = ((concatRows [⟨[(2, 7)], RankMetric.Score, true⟩,
          ⟨[(2, 3), (3, 1)], RankMetric.Distance, false⟩]).map Prod.fst).dedup.length :=
  (c5_chain_fusion_amended
    [⟨[(2, 7)], RankMetric.Score, true⟩, ⟨[(2, 3), (3, 1)], RankMetric.Distance, false⟩]
    ⟨[(2, 7), (3, 1)], RankMetric.Undefined, false⟩ (by decide)).2.2.2.2

/-- C8: fusing the literal duplicate list with any admissible ChainFusion
behaviour yields exactly one candidate per unique id of A. -/
theorem c8_chain_fusion_duplicate_input (A : SearchResult) (out : SearchResult)
    (h : chainFuse [A, A] out) :
    out.rows.length = (A.rows.map Prod.fst).dedup.length := by
  have h2 : (concatRows [A, A]).map Prod.fst
      = A.rows.map Prod.fst ++ A.rows.map Prod.fst := by
    simp [concatRows]
  rw [chainFuse_length h, h2]
  rw [← List.card_toFinset, ← List.card_toFinset, List.toFinset_append, Finset.union_self]

/-- Witness for C8 at a concrete A with a repeated id. -/
theorem c8_chain_fusion_duplicate_input_witness :
    (⟨[(2, 0), (1, 9)], RankMetric.Undefined, false⟩ : SearchResult).rows.length
      = ((⟨[(1, 5), (1, 9), (2, 0)], RankMetric.Score, false⟩ : SearchResult).rows.map
          Prod.fst).dedup.length :=
  c8_chain_fusion_duplicate_input ⟨[(1, 5), (1, 9), (2, 0)], RankMetric.Score, false⟩
    ⟨[(2, 0), (1, 9)], RankMetric.Undefined, false⟩ (by decide)

end SearchPipeline

namespace SearchPipeline

/-- C6: building a pipeline fails, with no search function returned, in
exactly the three misuse cases: zero searchers (the raise embedded as
NoSearchersConfigured), one searcher with a fusion method supplied (the
assert embedded as RedundantFusionMethod), and two or more searchers without
a fusion method (the assert embedded as NoFusionMethod); every other
combination yields a callable.  The checks run inside create_search_fn
itself, before any searcher is consulted, so failure is at construction
time, never at query time. -/
theorem c6_construction_time_validation :
    ∀ (ss : List Searcher) (fm : Option Fusion) (rr : Option RerankFn),
      (create_search_fn ss fm rr = Except.error PipelineError.NoSearchersConfigured
        ↔ ss = []) ∧
      (create_search_fn ss fm rr = Except.error PipelineError.RedundantFusionMethod
        ↔ ss.length = 1 ∧ fm.isSome) ∧
      (create_search_fn ss fm rr = Except.error PipelineError.NoFusionMethod
        ↔ 2 ≤ ss.length ∧ fm = none) ∧
      ((∃ e, create_search_fn ss fm rr = Except.error e)
        ↔ ss = [] ∨ (ss.length = 1 ∧ fm.isSome) ∨ (2 ≤ ss.length ∧ fm = none)) := by
  intro ss fm rr
  rcases ss with _ | ⟨s1, _ | ⟨s2, rest⟩⟩ <;> rcases fm with _ | f <;> rcases rr with _ | r <;>
    simp [create_search_fn]

end SearchPipeline

namespace SearchPipeline

/-- The descending direction of a SearchResult resolves exactly when its
metric is not Undefined. -/
theorem descending_isSome_iff (r : SearchResult) :
    r.descending.isSome = true ↔ r.rank_metric ≠ RankMetric.Undefined := by
  rcases r with ⟨rows, m, s⟩
  cases m <;> simp [SearchResult.descending]

/-- Ranking a result does not change its id column. -/
theorem rankRows_map_fst {r : SearchResult} (h : r.descending.isSome = true) :
    (rankRows r).map Prod.fst = r.rows.map Prod.fst := by
  rcases hd : r.descending with _ | d
  · rw [hd] at h
    simp at h
  · simp [rankRows, hd, List.map_map, Function.comp]

/-- Pairing each element with a computed value and projecting back is the
identity on the id list. -/
theorem map_fst_map_pair (g : Nat → ℚ) (l : List Nat) :
    (l.map (fun i => (i, g i))).map Prod.fst = l := by
  induction l with
  | nil => rfl
  | cons a t ih => simp [ih]

/-- C10: for every constructor state (any max_count, any k argument) and
every non-empty input list whose metrics are defined, fuse succeeds and
returns exactly one candidate per distinct id across the inputs: the output
ids are duplicate-free, an id appears in the output iff it appears in some
input, and the number of output rows is the number of distinct input ids,
with no truncation. -/
theorem c10_rrf_one_candidate_per_distinct_id (self : ReciprocalRankFusion)
    (inputs : List SearchResult) (hne : inputs ≠ [])
    (hm : ∀ r ∈ inputs, r.rank_metric ≠ RankMetric.Undefined) :
    ∃ out, self.fuse inputs = some out ∧
      (out.rows.map Prod.fst).Nodup ∧
      (∀ i, i ∈ out.rows.map Prod.fst ↔ ∃ r, r ∈ inputs ∧ i ∈ r.rows.map Prod.fst) ∧
      out.rows.length
        = (((inputs.map SearchResult.rows).flatten).map Prod.fst).dedup.length := by
  have hne2 : inputs.isEmpty = false := by
    cases inputs
    · exact absurd rfl hne
    · rfl
  have hall : inputs.all (fun r => r.descending.isSome) = true :=
    List.all_eq_true.2 (fun r hr => (descending_isSome_iff r).2 (hm r hr))
  have hsome : ∀ r ∈ inputs, r.descending.isSome = true :=
    fun r hr => (descending_isSome_iff r).2 (hm r hr)
  refine ⟨⟨(((inputs.map rankRows).flatten.map Prod.fst).dedup).map (fun i =>
      (i, 1 / ((((inputs.map rankRows).flatten.filter (fun p => p.1 = i)).map
        (fun p => (p.2 : ℚ) + self.k)).sum))),
    RankMetric.Score, false⟩, ?_, ?_, ?_, ?_⟩
  · simp [ReciprocalRankFusion.fuse, hne2, hall]
  · rw [map_fst_map_pair]
    exact List.nodup_dedup _
  · intro i
    rw [map_fst_map_pair, List.mem_dedup]
    constructor
    · intro hi
      rcases List.mem_map.1 hi with ⟨p, hp, rfl⟩
      rcases List.mem_flatten.1 hp with ⟨chunk, hchunk, hpchunk⟩
      rcases List.mem_map.1 hchunk with ⟨r, hr, rfl⟩
      refine ⟨r, hr, ?_⟩
      rw [← rankRows_map_fst (hsome r hr)]
      exact List.mem_map.2 ⟨p, hpchunk, rfl⟩
    · rintro ⟨r, hr, hi⟩
      rw [← rankRows_map_fst (hsome r hr)] at hi
      rcases List.mem_map.1 hi with ⟨p, hp, rfl⟩
      exact List.mem_map.2
        ⟨p, List.mem_flatten.2 ⟨rankRows r, List.mem_map.2 ⟨r, hr, rfl⟩, hp⟩, rfl⟩
  · have hlists : (inputs.map rankRows).flatten.map Prod.fst
        = ((inputs.map SearchResult.rows).flatten).map Prod.fst := by
      rw [List.map_flatten, List.map_flatten, List.map_map, List.map_map]
      exact congrArg List.flatten
        (List.map_congr_left (fun r hr => rankRows_map_fst (hsome r hr)))
    rw [List.length_map, hlists]

end SearchPipeline

namespace SearchPipeline

/-- Witness for C10: a ReciprocalRankFusion constructed with max_count 1
still returns both distinct ids of a two-candidate input, untruncated. -/
theorem c10_rrf_one_candidate_per_distinct_id_witness :
    ∃ out, (ReciprocalRankFusion.init 60 (some 1)).fuse
        [⟨[(1, 2), (2, 3)], RankMetric.Score, false⟩] = some out ∧
      (out.rows.map Prod.fst).Nodup ∧
      (∀ i, i ∈ out.rows.map Prod.fst ↔
        ∃ r, r ∈ [(⟨[(1, 2), (2, 3)], RankMetric.Score, false⟩ : SearchResult)] ∧
          i ∈ r.rows.map Prod.fst) ∧
      out.rows.length
        = ((([(⟨[(1, 2), (2, 3)], RankMetric.Score, false⟩ : SearchResult)].map
            SearchResult.rows).flatten).map Prod.fst).dedup.length :=
  c10_rrf_one_candidate_per_distinct_id (ReciprocalRankFusion.init 60 (some 1))
    [⟨[(1, 2), (2, 3)], RankMetric.Score, false⟩] (by decide) (by decide)

end SearchPipeline

namespace SearchPipeline

/-- The document join keeps exactly the candidate rows whose id resolves. -/
theorem retrieve_docs_length (documents : Nat → Option String)
    (rows : List (Nat × ℚ)) :
    (retrieve_docs documents rows).length
      = (rows.filter (fun p => (documents p.1).isSome)).length := by
  induction rows with
  | nil => rfl
  | cons p rest ih =>
    rcases hd : documents p.1 with _ | d <;>
      simp [retrieve_docs, List.filterMap_cons, hd, List.filter_cons] at ih ⊢ <;>
      exact ih

/-- Membership in the document join. -/
theorem mem_retrieve_docs {documents : Nat → Option String}
    {rows : List (Nat × ℚ)} {q : Nat × String} :
    q ∈ retrieve_docs documents rows
      ↔ ∃ p ∈ rows, p.1 = q.1 ∧ documents p.1 = some q.2 := by
  rcases q with ⟨j, d⟩
  simp only [retrieve_docs, List.mem_filterMap, Option.map_eq_some']
  constructor
  · rintro ⟨p, hp, a, hda, heq⟩
    rcases Prod.mk.injEq .. ▸ heq with ⟨h1, h2⟩
    exact ⟨p, hp, by simp [Prod.ext_iff] at heq; exact ⟨heq.1, heq.2 ▸ hda⟩⟩
  · rintro ⟨p, hp, h1, h2⟩
    exact ⟨p, hp, d, h2, by simp [h1]⟩

/-- C4 amended: when exactly one of the candidate ids of a fused result has
no resolvable document, MSMarcoCrossEncoder.rerank still returns a
SearchResult (no hard failure) holding the other N-1 candidates with their
cross-encoder scores, metric Score and sorted false, but the unresolvable
candidate is silently dropped: it appears nowhere in the returned value, and
no partial-failure indicator of any kind exists in the output type. -/
theorem c4_rerank_drops_unresolvable_silently (documents : Nat → Option String)
    (predict : String → String → ℚ) (query : String)
    (search_result : SearchResult) (i0 : Nat)
    (hmiss : ∀ p ∈ search_result.rows, (documents p.1 = none ↔ p.1 = i0))
    (hcount : (search_result.rows.filter (fun p => p.1 = i0)).length = 1) :
    (MSMarcoCrossEncoder.rerank documents predict query search_result).rows.length + 1
        = search_result.rows.length ∧
    i0 ∉ (MSMarcoCrossEncoder.rerank documents predict query
        search_result).rows.map Prod.fst ∧
    (∀ j ∈ search_result.rows.map Prod.fst, j ≠ i0 →
      j ∈ (MSMarcoCrossEncoder.rerank documents predict query
        search_result).rows.map Prod.fst) ∧
    (∀ p ∈ (MSMarcoCrossEncoder.rerank documents predict query search_result).rows,
      ∃ d, documents p.1 = some d ∧ p.2 = predict query d) ∧
    (MSMarcoCrossEncoder.rerank documents predict query search_result).rank_metric
        = RankMetric.Score ∧
    (MSMarcoCrossEncoder.rerank documents predict query search_result).sorted
        = false := by
  have hfc : search_result.rows.filter (fun p => (documents p.1).isSome)
      = search_result.rows.filter (fun p => !(decide (p.1 = i0))) := by
    apply List.filter_congr
    intro p hp
    have h1 := hmiss p hp
    rcases hdoc : documents p.1 with _ | d
    · rw [hdoc] at h1
      simp only [Option.isSome_none]
      simp [h1.1 rfl]
    · rw [hdoc] at h1
      simp only [Option.isSome_some]
      have hne0 : ¬ p.1 = i0 := fun h => Option.noConfusion (h1.2 h)
      simp [hne0]
  refine ⟨?_, ?_, ?_, ?_, rfl, rfl⟩
  · have hsplit := List.length_eq_length_filter_add
      (l := search_result.rows) (fun p => decide (p.1 = i0))
    have hlen : (MSMarcoCrossEncoder.rerank documents predict query
        search_result).rows.length
        = (retrieve_docs documents search_result.rows).length := by
      simp [MSMarcoCrossEncoder.rerank]
    rw [hlen, retrieve_docs_length, hfc]
    omega
  · intro hmem
    rcases List.mem_map.1 hmem with ⟨p, hp, hpi⟩
    simp only [MSMarcoCrossEncoder.rerank] at hp
    rcases List.mem_map.1 hp with ⟨qd, hqd, rfl⟩
    rcases mem_retrieve_docs.1 hqd with ⟨p2, hp2, hid, hdoc⟩
    have : p2.1 = i0 := by
      simpa using hid.trans hpi
    rw [(hmiss p2 hp2).2 this] at hdoc
    cases hdoc
  · intro j hj hne
    rcases List.mem_map.1 hj with ⟨p, hp, rfl⟩
    have hds : documents p.1 ≠ none := fun h => hne ((hmiss p hp).1 h)
    rcases hdoc : documents p.1 with _ | d
    · exact absurd hdoc hds
    · refine List.mem_map.2 ⟨(p.1, predict query d), ?_, rfl⟩
      simp only [MSMarcoCrossEncoder.rerank]
      exact List.mem_map.2 ⟨(p.1, d), mem_retrieve_docs.2 ⟨p, hp, rfl, hdoc⟩, rfl⟩
  · intro p hp
    simp only [MSMarcoCrossEncoder.rerank] at hp
    rcases List.mem_map.1 hp with ⟨qd, hqd, rfl⟩
    rcases mem_retrieve_docs.1 hqd with ⟨p2, hp2, hid, hdoc⟩
    exact ⟨qd.2, hid ▸ hdoc, rfl⟩

end SearchPipeline

namespace SearchPipeline

/-- Witness for the amended C4: two candidates, document of id 2 missing,
so one candidate is scored and id 2 is absent from the output. -/
theorem c4_rerank_drops_unresolvable_silently_witness :
    (MSMarcoCrossEncoder.rerank (fun i => if i = 1 then some "t" else none)
        (fun _ _ => 3) "q" ⟨[(1, 5), (2, 6)], RankMetric.Score, false⟩).rows.length + 1
      = (⟨[(1, 5), (2, 6)], RankMetric.Score, false⟩ : SearchResult).rows.length ∧
    2 ∉ (MSMarcoCrossEncoder.rerank (fun i => if i = 1 then some "t" else none)
        (fun _ _ => 3) "q" ⟨[(1, 5), (2, 6)], RankMetric.Score,
          false⟩).rows.map Prod.fst := by
  have h := c4_rerank_drops_unresolvable_silently
    (fun i => if i = 1 then some "t" else none) (fun _ _ => (3 : ℚ)) "q"
    ⟨[(1, 5), (2, 6)], RankMetric.Score, false⟩ 2 (by decide) (by decide)
  exact ⟨h.1, h.2.1⟩

/-- C4 counterexample: the claim says the candidate with no resolvable
document must come with a PartialRerankFailure warning listing the missing
ids rather than be silently dropped.  In the source the rerank of the
two-candidate input whose id 2 has no document equals, component for
component, the rerank of the one-candidate input that never contained id 2:
the returned SearchResult is the only output and it carries no trace of the
dropped candidate, so no marker of the partial failure exists. -/
theorem c4_missing_id_leaves_no_marker :
    MSMarcoCrossEncoder.rerank (fun i => if i = 1 then some "t" else none)
        (fun _ _ => 3) "q" ⟨[(1, 5), (2, 6)], RankMetric.Score, false⟩
      = MSMarcoCrossEncoder.rerank (fun i => if i = 1 then some "t" else none)
        (fun _ _ => 3) "q" ⟨[(1, 5)], RankMetric.Score, false⟩ ∧
    (MSMarcoCrossEncoder.rerank (fun i => if i = 1 then some "t" else none)
        (fun _ _ => 3) "q" ⟨[(1, 5), (2, 6)], RankMetric.Score,
          false⟩).rows.map Prod.fst = [1] :=
  ⟨rfl, rfl⟩

end SearchPipeline
